import Mathlib

/-!
Verification of the distortos RTOS core against its specification.

The development shallowly embeds the kernel sources:
* `src/source/synchronization/Semaphore.cpp` — the counting semaphore,
* `src/source/signals/ThisThread-Signals.cpp` — the signal wait facility,
* `src/source/threads/ThreadBase.cpp` — thread join,
* `src/test/Mutex/mutexTestTryLockWhenLocked.cpp` — the mutex tryLock acceptance check.

Machine integers are modelled as `Nat` with explicit wrap-around modulo `2 ^ 32`
where the C++ code uses `unsigned int`.  Parts of the kernel whose implementation
files are not available (the scheduler's `block`/`blockUntil` and
`ThreadControlBlock::acceptPendingSignal`) are modelled from the specification and
are marked as such in their doc comments.
-/

namespace Distortos

/-- Largest value of the C++ type `unsigned int` (the 32-bit targets of distortos);
`Semaphore::Value` is `unsigned int`. -/
def UINT_MAX : Nat := 2 ^ 32 - 1

/-- Error code EPERM from newlib's errno.h, included via cerrno. -/
def EPERM : Nat := 1

/-- Error code EINTR from newlib's errno.h. -/
def EINTR : Nat := 4

/-- Error code EAGAIN from newlib's errno.h. -/
def EAGAIN : Nat := 11

/-- Error code EBUSY from newlib's errno.h. -/
def EBUSY : Nat := 16

/-- Error code EINVAL from newlib's errno.h. -/
def EINVAL : Nat := 22

/-- Error code EDEADLK from newlib's errno.h. -/
def EDEADLK : Nat := 45

/-- Error code ETIMEDOUT from newlib's errno.h. -/
def ETIMEDOUT : Nat := 116

/-- Error code EOVERFLOW from newlib's errno.h. -/
def EOVERFLOW : Nat := 139

/-- State of a `distortos::Semaphore` (Semaphore.cpp): the counter `value_`, the
bound `maxValue_`, and the list of blocked threads (`blockedList_`), represented by
thread identifiers in list order, head first. -/
structure Semaphore where
  value : Nat
  maxValue : Nat
  blockedList : List Nat

/-- Semaphore constructor, Semaphore.cpp lines 30-37: the initial value is clamped
to `maxValue` (`value_{value <= maxValue ? value : maxValue}`); the blocked list
starts empty. -/
def Semaphore.make (value maxValue : Nat) : Semaphore :=
  { value := if value ≤ maxValue then value else maxValue,
    maxValue := maxValue,
    blockedList := [] }

/-- Modelled from the spec: `Scheduler::block` is not under src/ (only its callers
are).  Per specification §4.1 it "removes current thread from ready list, appends to
`list`" — the calling thread is appended at the tail, so blocked lists are
FIFO-ordered by arrival (glossary: "Blocked list: FIFO-ordered waiters"). -/
def schedulerBlock (blockedList : List Nat) (tid : Nat) : List Nat :=
  blockedList ++ [tid]

/-- Modelled from the spec: `Scheduler::blockUntil` is not under src/.  Per
specification §4.1, when nothing unblocks the waiter the tick hook unblocks it with
reason Timeout at tick `deadline` and the wait returns ETIMEDOUT; per §8 a deadline
at or before the current tick times out immediately.  The result is the pair of the
return code and the tick at which the call returns, for a run during which no
unblock request arrives. -/
def schedulerBlockUntilTimeout (now deadline : Nat) : Nat × Nat :=
  (ETIMEDOUT, max now deadline)

/-- `Semaphore::tryWaitInternal`, Semaphore.cpp lines 99-107: EAGAIN when the value
is 0, otherwise decrement and succeed. -/
def Semaphore.tryWaitInternal (s : Semaphore) : Nat × Semaphore :=
  if s.value = 0 then (EAGAIN, s)
  else (0, { s with value := s.value - 1 })

/-- `Semaphore::tryWait`, Semaphore.cpp lines 62-66: `tryWaitInternal` under the
interrupt mask. -/
def Semaphore.tryWait (s : Semaphore) : Nat × Semaphore :=
  s.tryWaitInternal

/-- `Semaphore::post`, Semaphore.cpp lines 44-60.  Returns the error code, the new
semaphore state, and the waiter that `Scheduler::unblock(blockedList_.begin())`
removed from the head of the blocked list (if any).  The increment of the unsigned
32-bit `value_` wraps modulo `2 ^ 32`. -/
def Semaphore.post (s : Semaphore) : Nat × Semaphore × Option Nat :=
  if s.value = s.maxValue then
    (EOVERFLOW, s, none)
  else
    match s.blockedList with
    | waiter :: rest => (0, { s with blockedList := rest }, some waiter)
    | [] => (0, { s with value := (s.value + 1) % (UINT_MAX + 1) }, none)

/-- Outcome of a (possibly) blocking wait operation for the calling thread: either
an immediate return with a code, or the caller was blocked. -/
inductive WaitOutcome where
  | immediate (ret : Nat)
  | blocked
deriving DecidableEq

/-- `Semaphore::wait`, Semaphore.cpp lines 84-93, as a state transition for calling
thread `tid`: try `tryWaitInternal`; on EAGAIN the caller is blocked on the
semaphore's list via `Scheduler::block`. -/
def Semaphore.waitStep (s : Semaphore) (tid : Nat) : WaitOutcome × Semaphore :=
  let r := s.tryWaitInternal
  if r.1 ≠ EAGAIN then (WaitOutcome.immediate r.1, r.2)
  else (WaitOutcome.blocked, { r.2 with blockedList := schedulerBlock r.2.blockedList tid })

/-- `Semaphore::tryWaitUntil`, Semaphore.cpp lines 73-82, as a state transition for
calling thread `tid`: try `tryWaitInternal`; on EAGAIN the caller is blocked on the
semaphore's list via `Scheduler::blockUntil`. -/
def Semaphore.tryWaitUntilStep (s : Semaphore) (tid : Nat) : WaitOutcome × Semaphore :=
  let r := s.tryWaitInternal
  if r.1 ≠ EAGAIN then (WaitOutcome.immediate r.1, r.2)
  else (WaitOutcome.blocked, { r.2 with blockedList := schedulerBlock r.2.blockedList tid })

/-- `Semaphore::tryWaitUntil`, Semaphore.cpp lines 73-82, for a complete run during
which no post occurs: `tryWaitInternal`, then `Scheduler::blockUntil` which times
out at the deadline; the timed-out waiter is removed from the blocked list again by
the tick hook, leaving the semaphore unchanged.  Returns the code, the tick at
which the call returns, and the final semaphore state. -/
def Semaphore.tryWaitUntilNoPost (s : Semaphore) (now deadline : Nat) :
    Nat × Nat × Semaphore :=
  let r := s.tryWaitInternal
  if r.1 ≠ EAGAIN then (r.1, now, r.2)
  else
    let b := schedulerBlockUntilTimeout now deadline
    (b.1, b.2, r.2)

/-- `Semaphore::tryWaitFor`, Semaphore.cpp lines 68-71:
`tryWaitUntil(TickClock::now() + duration + TickClock::duration{1})`. -/
def Semaphore.tryWaitForNoPost (s : Semaphore) (now duration : Nat) :
    Nat × Nat × Semaphore :=
  s.tryWaitUntilNoPost now (now + duration + 1)

/-- The semaphore invariant stated in specification §3:
`value == 0 ∨ blocked.empty()`. -/
def SemInv (s : Semaphore) : Prop :=
  s.value = 0 ∨ s.blockedList = []

/-- `ThreadBase::join`, ThreadBase.cpp lines 42-50: EDEADLK when the target thread
control block is the current one; otherwise wait on the join semaphore, retrying
while the wait returns EINTR (a blocked caller resumes with 0 once the termination
hook posts the semaphore). -/
def ThreadBase.join (targetIsCurrentThread : Bool) (joinSemaphore : Semaphore)
    (tid : Nat) : Nat × Semaphore :=
  if targetIsCurrentThread then (EDEADLK, joinSemaphore)
  else
    let r := joinSemaphore.waitStep tid
    match r.1 with
    | WaitOutcome.immediate ret => (ret, r.2)
    | WaitOutcome.blocked => (0, r.2)

/-- The acceptance check computed by the repository test
`mutexTestTryLockWhenLocked` (mutexTestTryLockWhenLocked.cpp lines 55-57): the
spawned thread records `ret == EBUSY && start == TickClock::now()` for the value
`ret` returned by `Mutex::tryLock` on a mutex locked by another thread. -/
def mutexTestTryLockWhenLockedCheck (tryLockRet startTick nowTick : Nat) : Bool :=
  (tryLockRet == EBUSY) && (startTick == nowTick)

/-- Index of the least significant set bit of a positive number (0 for inputs 0 and
1). -/
def lowestSetBit (n : Nat) : Nat :=
  if h : n ≤ 1 then 0
  else if n % 2 = 1 then 0
  else 1 + lowestSetBit (n / 2)
termination_by n
decreasing_by omega

/-- The signal number computed at ThisThread-Signals.cpp line 132:
`__builtin_ffsl(intersectionValue) - 1`, converted to `uint8_t` — an empty
intersection yields -1, which wraps to 255 and is rejected by
`acceptPendingSignal`. -/
def signalNumberOf (intersection : Nat) : Nat :=
  if intersection = 0 then 255 else lowestSetBit intersection

/-- Modelled from the spec: the body of `ThreadControlBlock::acceptPendingSignal`
(ThreadControlBlock.cpp) is not under src/, only its declaration
(ThreadControlBlock.hpp lines 98-109).  Per specification §4.5: clear bit `n` of
the pending set; EINVAL if `n` is out of range [0; 31] or the bit is clear.
Returns the code and the new pending set. -/
def acceptPendingSignal (pendingSignalSet : Nat) (signalNumber : Nat) : Nat × Nat :=
  if 31 < signalNumber then (EINVAL, pendingSignalSet)
  else if pendingSignalSet.testBit signalNumber = false then (EINVAL, pendingSignalSet)
  else (0, pendingSignalSet ^^^ 2 ^ signalNumber)

/-- Common tail of `waitImplementation`, ThisThread-Signals.cpp lines 130-134:
take the intersection's lowest set bit as the signal number and accept it from the
given pending set.  Returns the pair (code, signal number) and the new pending
set. -/
def waitImplAccept (bitset pendingBitset : Nat) : (Nat × Nat) × Nat :=
  let intersection := bitset &&& pendingBitset
  let signalNumber := signalNumberOf intersection
  let acc := acceptPendingSignal pendingBitset signalNumber
  ((acc.1, signalNumber), acc.2)

/-- `waitImplementation`, ThisThread-Signals.cpp lines 98-135.  `bitset` is the
waited-for signal set, `pendingBitset` the current thread's pending set at entry.
`blockResult` stands for the outcome of `Scheduler::block`/`blockUntil` together
with the pending-set snapshot copied out atomically by
`SignalsWaitUnblockFunctor::operator()` (lines 67-71) when the thread is unblocked;
it is consulted only on the blocking path. -/
def waitImplementation (bitset pendingBitset : Nat) (nonBlocking : Bool)
    (blockResult : Nat × Nat) : (Nat × Nat) × Nat :=
  let intersection := bitset &&& pendingBitset
  if intersection = 0 then
    if nonBlocking then ((EAGAIN, 0), pendingBitset)
    else if blockResult.1 ≠ 0 then ((blockResult.1, 0), blockResult.2)
    else waitImplAccept bitset blockResult.2
  else waitImplAccept bitset pendingBitset

/-- `ThisThread::Signals::tryWait`, ThisThread-Signals.cpp lines 153-156:
`waitImplementation(signalSet, true, nullptr)` — non-blocking mode. -/
def signalsTryWait (bitset pendingBitset : Nat) (blockResult : Nat × Nat) :
    (Nat × Nat) × Nat :=
  waitImplementation bitset pendingBitset true blockResult

/-! Helper lemmas about `lowestSetBit` and bit manipulation. -/

/-- The bit selected by `lowestSetBit` is set. -/
theorem lowestSetBit_testBit : ∀ n : Nat, n ≠ 0 → n.testBit (lowestSetBit n) = true := by
  intro n
  induction n using Nat.strong_induction_on with
  | _ n ih =>
    intro h
    rw [lowestSetBit]
    split
    · have h1 : n = 1 := by omega
      subst h1
      decide
    · rename_i h1
      split
      · rename_i h2
        simp [Nat.testBit_zero]
        omega
      · rename_i h2
        rw [Nat.add_comm, Nat.testBit_add_one]
        exact ih (n / 2) (by omega) (by omega)

/-- No bit below `lowestSetBit` is set. -/
theorem testBit_eq_false_of_lt_lowestSetBit :
    ∀ n k : Nat, k < lowestSetBit n → n.testBit k = false := by
  intro n
  induction n using Nat.strong_induction_on with
  | _ n ih =>
    intro k hk
    rw [lowestSetBit] at hk
    split at hk
    · omega
    · rename_i h1
      split at hk
      · omega
      · rename_i h2
        cases k with
        | zero =>
          simp [Nat.testBit_zero]
          omega
        | succ j =>
          rw [Nat.testBit_add_one]
          exact ih (n / 2) (by omega) j (by omega)

/-- A nonzero 32-bit value has its lowest set bit in range [0; 31]. -/
theorem lowestSetBit_le_31 {n : Nat} (h0 : n ≠ 0) (h32 : n < 2 ^ 32) :
    lowestSetBit n ≤ 31 := by
  by_contra hgt
  have ht := lowestSetBit_testBit n h0
  have hlt : n < 2 ^ lowestSetBit n :=
    lt_of_lt_of_le h32 (Nat.pow_le_pow_right (by norm_num) (by omega))
  rw [Nat.testBit_lt_two_pow hlt] at ht
  exact Bool.false_ne_true ht

/-- XOR with a set bit clears that bit. -/
theorem testBit_clear_self {p n : Nat} (h : p.testBit n = true) :
    (p ^^^ 2 ^ n).testBit n = false := by
  rw [Nat.testBit_xor, h, Nat.testBit_two_pow_self]
  rfl

/-- XOR with bit `n` leaves every other bit unchanged. -/
theorem testBit_clear_other {p n k : Nat} (hk : k ≠ n) :
    (p ^^^ 2 ^ n).testBit k = p.testBit k := by
  rw [Nat.testBit_xor, Nat.testBit_two_pow_of_ne (Ne.symm hk)]
  exact Bool.xor_false _

/-- `acceptPendingSignal` on an in-range, pending signal number succeeds and
clears the bit. -/
theorem acceptPendingSignal_eq {p n : Nat} (hn : n ≤ 31) (hb : p.testBit n = true) :
    acceptPendingSignal p n = (0, p ^^^ 2 ^ n) := by
  unfold acceptPendingSignal
  rw [if_neg (by omega), hb]
  simp

/-- `waitImplAccept` on a nonzero intersection accepts the intersection's lowest
set bit. -/
theorem waitImplAccept_eq {bitset pendingBitset : Nat}
    (h : bitset &&& pendingBitset ≠ 0) (hp : pendingBitset < 2 ^ 32) :
    waitImplAccept bitset pendingBitset =
      ((0, lowestSetBit (bitset &&& pendingBitset)),
        pendingBitset ^^^ 2 ^ lowestSetBit (bitset &&& pendingBitset)) := by
  have hb : pendingBitset.testBit (lowestSetBit (bitset &&& pendingBitset)) = true := by
    have hinter := lowestSetBit_testBit (bitset &&& pendingBitset) h
    rw [Nat.testBit_land] at hinter
    exact (Bool.and_eq_true _ _ |>.mp hinter).2
  have hn : lowestSetBit (bitset &&& pendingBitset) ≤ 31 :=
    lowestSetBit_le_31 h (lt_of_le_of_lt Nat.and_le_right hp)
  unfold waitImplAccept signalNumberOf
  simp only [if_neg h, acceptPendingSignal_eq hn hb]

/-! Claim theorems. -/

/-- C1: for every call to `Semaphore::post()`: if `value == maxValue` it returns
EOVERFLOW and leaves value and the blocked list unchanged; otherwise, if the
blocked list is non-empty, it unblocks the head waiter (the earliest-arrived one,
since blocking appends at the tail), leaves value unchanged and returns 0;
otherwise it increments value by exactly 1 and returns 0. -/
theorem semaphorePost_correct (s : Semaphore)
    (hval : s.value ≤ s.maxValue) (hmax : s.maxValue ≤ UINT_MAX) :
    (s.value = s.maxValue → s.post = (EOVERFLOW, s, none)) ∧
    (s.value ≠ s.maxValue → ∀ waiter rest, s.blockedList = waiter :: rest →
      s.post = (0, { s with blockedList := rest }, some waiter)) ∧
    (s.value ≠ s.maxValue → s.blockedList = [] →
      s.post = (0, { s with value := s.value + 1 }, none)) ∧
    (∀ tid, s.value = 0 → (s.waitStep tid).2.blockedList = s.blockedList ++ [tid]) := by
  refine ⟨?_, ?_, ?_, ?_⟩
  · intro h
    simp [Semaphore.post, h]
  · intro h waiter rest hb
    simp [Semaphore.post, h, hb]
  · intro h hb
    have hlt : s.value + 1 < UINT_MAX + 1 := by
      unfold UINT_MAX at *
      omega
    simp [Semaphore.post, h, hb, Nat.mod_eq_of_lt hlt]
  · intro tid h
    simp [Semaphore.waitStep, Semaphore.tryWaitInternal, schedulerBlock, h]

/-- Witness for `semaphorePost_correct` at the semaphore (value 2, maxValue 5, no
waiters): the hypotheses hold there and posting increments the value to 3. -/
theorem semaphorePost_correct_witness :
    ((⟨2, 5, []⟩ : Semaphore).value ≤ (⟨2, 5, []⟩ : Semaphore).maxValue ∧
      (⟨2, 5, []⟩ : Semaphore).maxValue ≤ UINT_MAX) ∧
    (⟨2, 5, []⟩ : Semaphore).post = (0, ⟨3, 5, []⟩, none) :=
  ⟨⟨by decide, by decide⟩,
    (semaphorePost_correct ⟨2, 5, []⟩ (by decide) (by decide)).2.2.1 (by decide) rfl⟩

/-- C6: `Semaphore::tryWait()` never blocks (the blocked list is never touched); on
value 0 it returns EAGAIN leaving the semaphore unchanged, otherwise it decrements
the value by exactly 1 and returns 0. -/
theorem semaphoreTryWait_correct (s : Semaphore) :
    ((s.tryWait).2.blockedList = s.blockedList) ∧
    (s.value = 0 → s.tryWait = (EAGAIN, s)) ∧
    (s.value ≠ 0 → s.tryWait = (0, { s with value := s.value - 1 }) ∧
      (s.tryWait).2.value + 1 = s.value) := by
  refine ⟨?_, ?_, ?_⟩
  · by_cases h : s.value = 0 <;>
      simp [Semaphore.tryWait, Semaphore.tryWaitInternal, h]
  · intro h
    simp [Semaphore.tryWait, Semaphore.tryWaitInternal, h]
  · intro h
    constructor
    · simp [Semaphore.tryWait, Semaphore.tryWaitInternal, h]
    · simp [Semaphore.tryWait, Semaphore.tryWaitInternal, h]
      omega

/-- Witness for `semaphoreTryWait_correct` at the semaphore (3, 5, []): tryWait
succeeds and decrements the value to 2. -/
theorem semaphoreTryWait_correct_witness :
    ((⟨3, 5, []⟩ : Semaphore).value ≠ 0) ∧
    (⟨3, 5, []⟩ : Semaphore).tryWait = (0, ⟨2, 5, []⟩) :=
  ⟨by decide, ((semaphoreTryWait_correct ⟨3, 5, []⟩).2.2 (by decide)).1⟩

/-- C7: on a semaphore with empty blocked list and value strictly below maximum,
`post(); wait()` returns 0 from both calls, never blocks, and restores the original
value (and the blocked list stays empty). -/
theorem semaphorePostWait_roundtrip (s : Semaphore) (tid : Nat)
    (hb : s.blockedList = []) (hlt : s.value < s.maxValue) (hmax : s.maxValue ≤ UINT_MAX) :
    (s.post).1 = 0 ∧ (s.post).2.2 = none ∧
    ((s.post).2.1.waitStep tid).1 = WaitOutcome.immediate 0 ∧
    ((s.post).2.1.waitStep tid).2.value = s.value ∧
    ((s.post).2.1.waitStep tid).2.blockedList = s.blockedList := by
  have hne : s.value ≠ s.maxValue := by omega
  have hmod : (s.value + 1) % (UINT_MAX + 1) = s.value + 1 := by
    apply Nat.mod_eq_of_lt
    unfold UINT_MAX at *
    omega
  refine ⟨?_, ?_, ?_, ?_, ?_⟩ <;>
    simp [Semaphore.post, Semaphore.waitStep, Semaphore.tryWaitInternal, hne, hb, hmod,
      EAGAIN]

/-- Witness for `semaphorePostWait_roundtrip` at the semaphore (0, 1, []) and
thread 7. -/
theorem semaphorePostWait_roundtrip_witness :
    ((⟨0, 1, []⟩ : Semaphore).blockedList = [] ∧
      (⟨0, 1, []⟩ : Semaphore).value < (⟨0, 1, []⟩ : Semaphore).maxValue ∧
      (⟨0, 1, []⟩ : Semaphore).maxValue ≤ UINT_MAX) ∧
    ((⟨0, 1, []⟩ : Semaphore).post).1 = 0 ∧
    ((⟨0, 1, []⟩ : Semaphore).post).2.2 = none ∧
    (((⟨0, 1, []⟩ : Semaphore).post).2.1.waitStep 7).1 = WaitOutcome.immediate 0 ∧
    (((⟨0, 1, []⟩ : Semaphore).post).2.1.waitStep 7).2.value =
      (⟨0, 1, []⟩ : Semaphore).value ∧
    (((⟨0, 1, []⟩ : Semaphore).post).2.1.waitStep 7).2.blockedList =
      (⟨0, 1, []⟩ : Semaphore).blockedList :=
  ⟨⟨rfl, by decide, by decide⟩,
    semaphorePostWait_roundtrip ⟨0, 1, []⟩ 7 rfl (by decide) (by decide)⟩

/-- C8: joining the currently running thread (a self-join) returns EDEADLK
immediately, leaving the join semaphore — value and blocked list — untouched, so
nothing is consumed from it and the caller is not blocked. -/
theorem threadJoinSelf_edeadlk (joinSemaphore : Semaphore) (tid : Nat) :
    ThreadBase.join true joinSemaphore tid = (EDEADLK, joinSemaphore) := by
  rfl

/-- C10: the constructor clamps the initial value to `maxValue`, and every
operation preserves `value ≤ maxValue` (post refuses to increment at the
maximum). -/
theorem semaphoreValueBound_invariant (value maxValue tid : Nat) (s : Semaphore)
    (h : s.value ≤ s.maxValue) :
    (Semaphore.make value maxValue).value ≤ maxValue ∧
    (maxValue < value → (Semaphore.make value maxValue).value = maxValue) ∧
    ((s.post).2.1.value ≤ s.maxValue) ∧
    (s.value = s.maxValue → (s.post).2.1.value = s.value) ∧
    ((s.tryWait).2.value ≤ s.maxValue) ∧
    ((s.waitStep tid).2.value ≤ s.maxValue) ∧
    ((s.tryWaitUntilStep tid).2.value ≤ s.maxValue) := by
  refine ⟨?_, ?_, ?_, ?_, ?_, ?_, ?_⟩
  · show (if value ≤ maxValue then value else maxValue) ≤ maxValue
    split <;> omega
  · intro hlt
    show (if value ≤ maxValue then value else maxValue) = maxValue
    rw [if_neg (by omega)]
  · by_cases he : s.value = s.maxValue
    · simp [Semaphore.post, he]
    · cases hb : s.blockedList with
      | cons waiter rest =>
        simp [Semaphore.post, he, hb]
        omega
      | nil =>
        simp [Semaphore.post, he, hb]
        calc (s.value + 1) % (UINT_MAX + 1) ≤ s.value + 1 := Nat.mod_le _ _
          _ ≤ s.maxValue := by omega
  · intro he
    simp [Semaphore.post, he]
  · by_cases h0 : s.value = 0 <;>
      simp [Semaphore.tryWait, Semaphore.tryWaitInternal, h0] <;> omega
  · by_cases h0 : s.value = 0 <;>
      simp [Semaphore.waitStep, Semaphore.tryWaitInternal, h0, EAGAIN] <;> omega
  · by_cases h0 : s.value = 0 <;>
      simp [Semaphore.tryWaitUntilStep, Semaphore.tryWaitInternal, h0, EAGAIN] <;> omega

/-- Witness for `semaphoreValueBound_invariant` with constructor arguments (9, 5),
thread 7 and the semaphore (5, 5, []): the constructor clamps 9 to 5 and post at the
maximum leaves the value at 5. -/
theorem semaphoreValueBound_invariant_witness :
    ((⟨5, 5, []⟩ : Semaphore).value ≤ (⟨5, 5, []⟩ : Semaphore).maxValue) ∧
    (Semaphore.make 9 5).value ≤ 5 ∧
    ((5 : Nat) < 9 → (Semaphore.make 9 5).value = 5) ∧
    (((⟨5, 5, []⟩ : Semaphore).post).2.1.value ≤ (⟨5, 5, []⟩ : Semaphore).maxValue) :=
  ⟨by decide,
    (semaphoreValueBound_invariant 9 5 7 ⟨5, 5, []⟩ (by decide)).1,
    (semaphoreValueBound_invariant 9 5 7 ⟨5, 5, []⟩ (by decide)).2.1,
    (semaphoreValueBound_invariant 9 5 7 ⟨5, 5, []⟩ (by decide)).2.2.1⟩

/-- C2: `Semaphore::tryWaitFor(d)` equals `tryWaitUntil(now() + d + 1 tick)`, and on
a semaphore whose value stays 0 with no post it returns ETIMEDOUT exactly `d + 1`
ticks after the call. -/
theorem semaphoreTryWaitFor_timeout (s : Semaphore) (now duration : Nat)
    (h : s.value = 0) :
    (∀ t d, s.tryWaitForNoPost t d = s.tryWaitUntilNoPost t (t + d + 1)) ∧
    s.tryWaitForNoPost now duration = (ETIMEDOUT, now + (duration + 1), s) := by
  constructor
  · intro t d
    rfl
  · simp [Semaphore.tryWaitForNoPost, Semaphore.tryWaitUntilNoPost,
      Semaphore.tryWaitInternal, schedulerBlockUntilTimeout, h]
    omega

/-- Witness for `semaphoreTryWaitFor_timeout` at the locked semaphore (0, 1, []),
current tick 100 and duration 10: the call times out 11 ticks later, at tick 111 —
the rounding example of the specification. -/
theorem semaphoreTryWaitFor_timeout_witness :
    ((⟨0, 1, []⟩ : Semaphore).value = 0) ∧
    (⟨0, 1, []⟩ : Semaphore).tryWaitForNoPost 100 10 =
      (ETIMEDOUT, 100 + (10 + 1), ⟨0, 1, []⟩) :=
  ⟨rfl, (semaphoreTryWaitFor_timeout ⟨0, 1, []⟩ 100 10 rfl).2⟩

/-- C5 counterexample: the claim says post unblocks a waiter whenever waiters
exist, but on the reachable state (value 0, maxValue 0, one waiter) — obtained by a
wait on `Semaphore{0, 0}` — post returns EOVERFLOW, unblocks nobody and leaves the
waiter blocked, because `value_ == maxValue_` is checked before the blocked list. -/
theorem semaphoreInv_post_counterexample :
    ((Semaphore.make 0 0).waitStep 7).2 = ⟨0, 0, [7]⟩ ∧
    SemInv ⟨0, 0, [7]⟩ ∧
    (⟨0, 0, [7]⟩ : Semaphore).blockedList ≠ [] ∧
    (Semaphore.post ⟨0, 0, [7]⟩).1 = EOVERFLOW ∧
    (Semaphore.post ⟨0, 0, [7]⟩).2.2 = none ∧
    (Semaphore.post ⟨0, 0, [7]⟩).2.1 = ⟨0, 0, [7]⟩ :=
  ⟨rfl, Or.inl rfl, by simp, rfl, rfl, rfl⟩

/-- C5 amended: `value == 0 ∨ blocked list empty` is an invariant of post, wait,
tryWait and tryWaitUntil; post unblocks a waiter instead of incrementing the value
whenever waiters exist *and* `value ≠ maxValue`; a wait blocks exactly when
`value == 0`. -/
theorem semaphoreInv_preserved (s : Semaphore) (tid : Nat) (h : SemInv s) :
    SemInv (s.post).2.1 ∧
    SemInv (s.waitStep tid).2 ∧
    SemInv (s.tryWait).2 ∧
    SemInv (s.tryWaitUntilStep tid).2 ∧
    (s.blockedList ≠ [] → s.value ≠ s.maxValue →
      (s.post).2.2 = s.blockedList.head? ∧ (s.post).2.1.value = s.value) ∧
    ((s.waitStep tid).1 = WaitOutcome.blocked ↔ s.value = 0) := by
  refine ⟨?_, ?_, ?_, ?_, ?_, ?_⟩
  · by_cases he : s.value = s.maxValue
    · simpa [Semaphore.post, he] using h
    · cases hb : s.blockedList with
      | cons waiter rest =>
        have h0 : s.value = 0 := by
          cases h with
          | inl h0 => exact h0
          | inr hempty => rw [hempty] at hb; cases hb
        simp [Semaphore.post, he, hb, SemInv]
        exact Or.inl h0
      | nil =>
        simp [Semaphore.post, he, hb, SemInv]
  · by_cases h0 : s.value = 0
    · simp [Semaphore.waitStep, Semaphore.tryWaitInternal, h0, SemInv]
    · have hempty : s.blockedList = [] := by
        cases h with
        | inl hv => exact absurd hv h0
        | inr hempty => exact hempty
      simp [Semaphore.waitStep, Semaphore.tryWaitInternal, h0, hempty, SemInv, EAGAIN]
  · by_cases h0 : s.value = 0
    · simpa [Semaphore.tryWait, Semaphore.tryWaitInternal, h0] using h
    · have hempty : s.blockedList = [] := by
        cases h with
        | inl hv => exact absurd hv h0
        | inr hempty => exact hempty
      simp [Semaphore.tryWait, Semaphore.tryWaitInternal, h0, hempty, SemInv]
  · by_cases h0 : s.value = 0
    · simp [Semaphore.tryWaitUntilStep, Semaphore.tryWaitInternal, h0, SemInv]
    · have hempty : s.blockedList = [] := by
        cases h with
        | inl hv => exact absurd hv h0
        | inr hempty => exact hempty
      simp [Semaphore.tryWaitUntilStep, Semaphore.tryWaitInternal, h0, hempty, SemInv,
        EAGAIN]
  · intro hne he
    cases hb : s.blockedList with
    | nil => exact absurd hb hne
    | cons waiter rest =>
      simp [Semaphore.post, he, hb]
  · by_cases h0 : s.value = 0 <;>
      simp [Semaphore.waitStep, Semaphore.tryWaitInternal, h0, EAGAIN]

/-- Witness for `semaphoreInv_preserved` at the semaphore (0, 5, [3]) — invariant
holds there (value 0) — and thread 7: post hands the "ticket" to the head waiter 3
without touching the value. -/
theorem semaphoreInv_preserved_witness :
    SemInv ⟨0, 5, [3]⟩ ∧
    ((⟨0, 5, [3]⟩ : Semaphore).blockedList ≠ [] →
      (⟨0, 5, [3]⟩ : Semaphore).value ≠ (⟨0, 5, [3]⟩ : Semaphore).maxValue →
      ((⟨0, 5, [3]⟩ : Semaphore).post).2.2 = (⟨0, 5, [3]⟩ : Semaphore).blockedList.head? ∧
      ((⟨0, 5, [3]⟩ : Semaphore).post).2.1.value = (⟨0, 5, [3]⟩ : Semaphore).value) ∧
    (((⟨0, 5, [3]⟩ : Semaphore).waitStep 7).1 = WaitOutcome.blocked ↔
      (⟨0, 5, [3]⟩ : Semaphore).value = 0) :=
  ⟨Or.inl rfl,
    (semaphoreInv_preserved ⟨0, 5, [3]⟩ 7 (Or.inl rfl)).2.2.2.2.1,
    (semaphoreInv_preserved ⟨0, 5, [3]⟩ 7 (Or.inl rfl)).2.2.2.2.2⟩

/-- C3 counterexample: the claim requires `Mutex::tryLock` on a mutex locked by
another thread to return EAGAIN, but a tryLock returning EAGAIN fails the
repository's own acceptance check (mutexTestTryLockWhenLocked.cpp lines 55-57),
which requires EBUSY. -/
theorem mutexTryLock_eagain_rejected :
    mutexTestTryLockWhenLockedCheck EAGAIN 0 0 = false := by
  decide

/-- C3 amended: `Mutex::tryLock` on a mutex locked by another thread returns EBUSY
— immediately, without advancing the tick — and EBUSY is an error code outside the
seven listed ones; the non-blocking semaphore and signal operations do return
EAGAIN when they would block. -/
theorem mutexTryLock_returns_ebusy :
    (∀ ret startTick : Nat,
      mutexTestTryLockWhenLockedCheck ret startTick startTick = true ↔ ret = EBUSY) ∧
    (EBUSY ≠ EINVAL ∧ EBUSY ≠ EAGAIN ∧ EBUSY ≠ ETIMEDOUT ∧ EBUSY ≠ EDEADLK ∧
      EBUSY ≠ EPERM ∧ EBUSY ≠ EOVERFLOW ∧ EBUSY ≠ EINTR) ∧
    (∀ s : Semaphore, s.value = 0 → s.tryWait = (EAGAIN, s)) ∧
    (∀ bitset pendingBitset : Nat, ∀ br : Nat × Nat, bitset &&& pendingBitset = 0 →
      signalsTryWait bitset pendingBitset br = ((EAGAIN, 0), pendingBitset)) := by
  refine ⟨?_, by decide, ?_, ?_⟩
  · intro ret startTick
    simp [mutexTestTryLockWhenLockedCheck]
  · intro s h0
    simp [Semaphore.tryWait, Semaphore.tryWaitInternal, h0]
  · intro bitset pendingBitset br h0
    simp [signalsTryWait, waitImplementation, h0]

/-- Witness for `mutexTryLock_returns_ebusy`: the acceptance check passes exactly
for EBUSY, and tryWait on the locked semaphore (0, 5, []) returns EAGAIN. -/
theorem mutexTryLock_returns_ebusy_witness :
    (mutexTestTryLockWhenLockedCheck EBUSY 4 4 = true ↔ EBUSY = EBUSY) ∧
    ((⟨0, 5, []⟩ : Semaphore).value = 0) ∧
    (⟨0, 5, []⟩ : Semaphore).tryWait = (EAGAIN, ⟨0, 5, []⟩) :=
  ⟨mutexTryLock_returns_ebusy.1 EBUSY 4, rfl,
    mutexTryLock_returns_ebusy.2.2.1 ⟨0, 5, []⟩ rfl⟩

/-- C4: if some waited-for signal is pending at the call, `wait(mask)` does not
block (the result does not depend on the block outcome), picks the lowest-numbered
signal of `mask ∩ pending`, clears exactly that bit from the pending set and
returns (0, n); when it blocks and resumes normally, the same lowest-bit selection
and acceptance is applied to the snapshot copied out by the unblock functor. -/
theorem signalsWait_accepts_lowest (bitset pendingBitset snapshot : Nat)
    (nonBlocking : Bool) (blockResult : Nat × Nat)
    (hp : pendingBitset < 2 ^ 32) (hs : snapshot < 2 ^ 32) :
    (bitset &&& pendingBitset ≠ 0 →
      waitImplementation bitset pendingBitset nonBlocking blockResult =
        ((0, lowestSetBit (bitset &&& pendingBitset)),
          pendingBitset ^^^ 2 ^ lowestSetBit (bitset &&& pendingBitset)) ∧
      Nat.testBit (bitset &&& pendingBitset) (lowestSetBit (bitset &&& pendingBitset)) =
        true ∧
      (∀ k, k < lowestSetBit (bitset &&& pendingBitset) →
        Nat.testBit (bitset &&& pendingBitset) k = false) ∧
      Nat.testBit (pendingBitset ^^^ 2 ^ lowestSetBit (bitset &&& pendingBitset))
        (lowestSetBit (bitset &&& pendingBitset)) = false ∧
      (∀ k, k ≠ lowestSetBit (bitset &&& pendingBitset) →
        Nat.testBit (pendingBitset ^^^ 2 ^ lowestSetBit (bitset &&& pendingBitset)) k =
          Nat.testBit pendingBitset k)) ∧
    (bitset &&& pendingBitset = 0 → bitset &&& snapshot ≠ 0 →
      waitImplementation bitset pendingBitset false (0, snapshot) =
        ((0, lowestSetBit (bitset &&& snapshot)),
          snapshot ^^^ 2 ^ lowestSetBit (bitset &&& snapshot)) ∧
      Nat.testBit (bitset &&& snapshot) (lowestSetBit (bitset &&& snapshot)) = true ∧
      (∀ k, k < lowestSetBit (bitset &&& snapshot) →
        Nat.testBit (bitset &&& snapshot) k = false)) := by
  constructor
  · intro h
    have hbp : pendingBitset.testBit (lowestSetBit (bitset &&& pendingBitset)) = true := by
      have hinter := lowestSetBit_testBit (bitset &&& pendingBitset) h
      rw [Nat.testBit_land] at hinter
      exact (Bool.and_eq_true _ _ |>.mp hinter).2
    refine ⟨?_, lowestSetBit_testBit _ h,
      fun k hk => testBit_eq_false_of_lt_lowestSetBit _ k hk,
      testBit_clear_self hbp,
      fun k hk => testBit_clear_other hk⟩
    simp [waitImplementation, h, waitImplAccept_eq h hp]
  · intro h0 hhit
    refine ⟨?_, lowestSetBit_testBit _ hhit,
      fun k hk => testBit_eq_false_of_lt_lowestSetBit _ k hk⟩
    simp [waitImplementation, h0, waitImplAccept_eq hhit hs]

/-- Witness for `signalsWait_accepts_lowest` with mask 8 (bit 3), pending 12
(bits 2 and 3), snapshot 9 (bits 0 and 3): the immediate path accepts bit 3 — the
lowest bit of the intersection 8 — and clears it, leaving pending 4. -/
theorem signalsWait_accepts_lowest_witness :
    ((12 : Nat) < 2 ^ 32 ∧ (9 : Nat) < 2 ^ 32) ∧
    ((8 : Nat) &&& 12 ≠ 0 →
      waitImplementation 8 12 true (0, 0) =
        ((0, lowestSetBit (8 &&& 12)), 12 ^^^ 2 ^ lowestSetBit (8 &&& 12)) ∧
      Nat.testBit (8 &&& 12) (lowestSetBit (8 &&& 12)) = true ∧
      (∀ k, k < lowestSetBit (8 &&& 12) → Nat.testBit (8 &&& 12) k = false) ∧
      Nat.testBit (12 ^^^ 2 ^ lowestSetBit (8 &&& 12)) (lowestSetBit (8 &&& 12)) =
        false ∧
      (∀ k, k ≠ lowestSetBit (8 &&& 12) →
        Nat.testBit (12 ^^^ 2 ^ lowestSetBit (8 &&& 12)) k = Nat.testBit 12 k)) :=
  ⟨⟨by decide, by decide⟩,
    (signalsWait_accepts_lowest 8 12 9 true (0, 0) (by decide) (by decide)).1⟩

/-- C9: `ThisThread::Signals::tryWait(mask)` never blocks (its result does not
depend on the block outcome) and returns EAGAIN exactly when no signal of the mask
is pending; otherwise it returns status 0 after accepting the lowest-numbered
pending signal of the mask. -/
theorem signalsTryWait_correct (bitset pendingBitset : Nat)
    (blockResult blockResult2 : Nat × Nat) (hp : pendingBitset < 2 ^ 32) :
    (signalsTryWait bitset pendingBitset blockResult =
      signalsTryWait bitset pendingBitset blockResult2) ∧
    ((signalsTryWait bitset pendingBitset blockResult).1.1 = EAGAIN ↔
      bitset &&& pendingBitset = 0) ∧
    (bitset &&& pendingBitset = 0 →
      signalsTryWait bitset pendingBitset blockResult = ((EAGAIN, 0), pendingBitset)) ∧
    (bitset &&& pendingBitset ≠ 0 →
      (signalsTryWait bitset pendingBitset blockResult).1 =
        (0, lowestSetBit (bitset &&& pendingBitset)) ∧
      Nat.testBit pendingBitset (lowestSetBit (bitset &&& pendingBitset)) = true ∧
      Nat.testBit bitset (lowestSetBit (bitset &&& pendingBitset)) = true ∧
      (∀ k, Nat.testBit bitset k = true → Nat.testBit pendingBitset k = true →
        lowestSetBit (bitset &&& pendingBitset) ≤ k)) := by
  by_cases h : bitset &&& pendingBitset = 0
  · refine ⟨?_, ?_, ?_, ?_⟩
    · simp [signalsTryWait, waitImplementation, h]
    · simp [signalsTryWait, waitImplementation, h]
    · intro _
      simp [signalsTryWait, waitImplementation, h]
    · intro hne
      exact absurd h hne
  · have heq := waitImplAccept_eq h hp
    have hinter := lowestSetBit_testBit (bitset &&& pendingBitset) h
    rw [Nat.testBit_land] at hinter
    have hpair := Bool.and_eq_true _ _ |>.mp hinter
    refine ⟨?_, ?_, ?_, ?_⟩
    · simp [signalsTryWait, waitImplementation, h]
    · rw [iff_false_intro h, iff_false]
      intro hret
      rw [show signalsTryWait bitset pendingBitset blockResult =
          waitImplAccept bitset pendingBitset by
            simp [signalsTryWait, waitImplementation, h], heq] at hret
      simp [EAGAIN] at hret
    · intro h0
      exact absurd h0 h
    · intro _
      refine ⟨?_, hpair.2, hpair.1, ?_⟩
      · rw [show signalsTryWait bitset pendingBitset blockResult =
            waitImplAccept bitset pendingBitset by
              simp [signalsTryWait, waitImplementation, h], heq]
      · intro k hbk hpk
        by_contra hlt
        have := testBit_eq_false_of_lt_lowestSetBit (bitset &&& pendingBitset) k
          (by omega)
        rw [Nat.testBit_land, hbk, hpk] at this
        cases this

/-- Witness for `signalsTryWait_correct` with mask 10 (bits 1 and 3) and pending 12
(bits 2 and 3): the intersection is 8, so tryWait accepts signal number 3. -/
theorem signalsTryWait_correct_witness :
    ((12 : Nat) < 2 ^ 32) ∧
    ((signalsTryWait 10 12 (0, 0)).1.1 = EAGAIN ↔ (10 : Nat) &&& 12 = 0) ∧
    ((10 : Nat) &&& 12 ≠ 0 →
      (signalsTryWait 10 12 (0, 0)).1 = (0, lowestSetBit (10 &&& 12)) ∧
      Nat.testBit 12 (lowestSetBit (10 &&& 12)) = true ∧
      Nat.testBit 10 (lowestSetBit (10 &&& 12)) = true ∧
      (∀ k, Nat.testBit 10 k = true → Nat.testBit 12 k = true →
        lowestSetBit (10 &&& 12) ≤ k)) :=
  ⟨by decide,
    (signalsTryWait_correct 10 12 (0, 0) (1, 1) (by decide)).2.1,
    (signalsTryWait_correct 10 12 (0, 0) (1, 1) (by decide)).2.2.2⟩

end Distortos
